import Mathlib

/-!
Shallow embedding of the LabelProcess Chrome extension's cross-context data
pipeline (order-number extraction, API reconciliation, local cache, USPS form
fill), translated from `src/js/background.js`, `src/js/api-proxy.js`,
`src/js/usps-autofill.js` and the unnamed USPS auto-fill content script
(`src/unnamed/part_010`).

Modelling conventions:
- a DOM table row is the list of its `td` cells; each cell records the text
  found by the primary CSS selector, the fallback selector, and the cell's own
  `textContent`;
- JavaScript `null`/`undefined` string values are `Option String`; JS string
  truthiness (`null`, `undefined` and `""` are falsy) is `optTruthy`;
- JS objects used as dictionaries are association lists with JS assignment
  semantics (`setKey`: overwrite in place, else append);
- package weights are modelled as integral ounce counts (`Nat`), so
  `Math.floor(parseFloat(w) / 16)` is natural-number division by 16;
- `localStorage.setItem('veeqoOrderData', JSON.stringify(m))` followed by
  `JSON.parse` round-trips the dictionary, so the stored blob is modelled as
  the dictionary itself;
- thrown JS exceptions are `Except.error` carrying the message.
-/

namespace LabelProcess

/-! ## JavaScript string primitives -/

/-- Model of `String.prototype.trim`: drop whitespace from both ends. -/
def trimChars (l : List Char) : List Char :=
  ((l.dropWhile Char.isWhitespace).reverse.dropWhile Char.isWhitespace).reverse

/-- JS `s.trim()`. -/
def jsTrim (s : String) : String := String.mk (trimChars s.data)

/-- JS `s.toUpperCase()` (ASCII letters, which is all the code feeds it). -/
def jsToUpper (s : String) : String := String.mk (s.data.map Char.toUpper)

/-- JS `s.charAt(0)`: the one-character string at index 0, `""` if empty. -/
def jsCharAt0 (s : String) : String := String.mk (s.data.take 1)

/-- The recurring JS idiom `x.textContent?.trim()` followed by a truthiness
check: trimmed text if non-empty, otherwise "nothing found". -/
def trimmedNonempty (s : String) : Option String :=
  let t := jsTrim s
  if t = "" then none else some t

/-- JS truthiness of a nullable string: `null`/`undefined` and `""` are falsy. -/
def optTruthy (o : Option String) : Bool :=
  match o with
  | some s => s != ""
  | none => false

/-- JS truthiness of a nullable number (`0` is falsy). -/
def natTruthy (o : Option Nat) : Bool :=
  match o with
  | some n => n != 0
  | none => false

/-- JS `x || null` on a nullable string: map falsy values to `null`. -/
def orNull (o : Option String) : Option String :=
  match o with
  | some s => if s = "" then none else some s
  | none => none

/-- JS `x || d` on a nullable string with a string default. -/
def orDefault (o : Option String) (d : String) : String :=
  match orNull o with
  | some s => s
  | none => d

/-- Tokens of `s.split(/\s+/)` built on the character list: split at every
whitespace character. JS subtlety: `"".split(/\s+/)` is `[""]`. -/
def splitOnWs : List Char → List (List Char)
  | [] => [[]]
  | c :: cs =>
    let r := splitOnWs cs
    if c.isWhitespace then [] :: r
    else
      match r with
      | [] => [[c]]
      | t :: ts => (c :: t) :: ts

/-- JS `s.split(/\s+/)`: whitespace-run separated tokens; `[""]` for `""`. -/
def jsSplitWhitespace (s : String) : List String :=
  if s = "" then [""]
  else ((splitOnWs s.data).map String.mk).filter (fun t => t != "")

/-- Executable check that `pat` is a leading segment of `l`. -/
def isPrefixList : List Char → List Char → Bool
  | [], _ => true
  | _ :: _, [] => false
  | a :: as, b :: bs => a == b && isPrefixList as bs

/-- Executable substring search used to state "the error string contains X". -/
def containsSub (pat : List Char) : List Char → Bool
  | [] => isPrefixList pat []
  | c :: t => isPrefixList pat (c :: t) || containsSub pat t

/-- `strContains s pat` holds when `pat` occurs contiguously inside `s`. -/
def strContains (s pat : String) : Bool := containsSub pat.data s.data

/-! ## JS object dictionaries as association lists -/

/-- JS property read `m[k]` on an object used as a dictionary. -/
def lookupKey {α : Type} (m : List (String × α)) (k : String) : Option α :=
  match m with
  | [] => none
  | (k', v) :: rest => if k' = k then some v else lookupKey rest k

/-- JS property write `m[k] = v`: overwrite in place if the key exists,
otherwise append (insertion order preserved). -/
def setKey {α : Type} (m : List (String × α)) (k : String) (v : α) :
    List (String × α) :=
  match m with
  | [] => [(k, v)]
  | (k', v') :: rest =>
    if k' = k then (k, v) :: rest else (k', v') :: setKey rest k v

/-- `Object.keys(m)` in insertion order. -/
def keysOf {α : Type} (m : List (String × α)) : List String := m.map Prod.fst

/-! ## DOM model: table rows and the three column extractors
(`src/js/background.js`) -/

/-- One `td` cell: the text content of the element found by the column's
primary selector (if that element exists), by the fallback selector used for
the shipping-rate column, and the cell's own `textContent`. -/
structure Cell where
  primarySel : Option String
  fallbackSel : Option String
  text : String
deriving DecidableEq

/-- A table row is its list of `td` cells. -/
abbrev Row := List Cell

/-- `cells[i]`, defaulting to an empty cell (only read under a length guard). -/
def cellAt (row : Row) (i : Nat) : Cell :=
  row.getD i { primarySel := none, fallbackSel := none, text := "" }

/-- `extractOrderNumberFromRow` (background.js:488): needs at least 4 cells;
column 4 (index 3); span text first, then any text in the cell; else null. -/
def extractOrderNumberFromRow (row : Row) : Option String :=
  if 4 ≤ row.length then
    let orderCell := cellAt row 3
    match orderCell.primarySel.bind trimmedNonempty with
    | some t => some t
    | none => trimmedNonempty orderCell.text
  else
    none

/-- `extractVeeqoShippingRateFromRow` (background.js:529): needs at least 7
cells; column 7 (index 6); primary selector, fallback selector, cell text. -/
def extractVeeqoShippingRateFromRow (row : Row) : Option String :=
  if 7 ≤ row.length then
    let shippingCell := cellAt row 6
    match shippingCell.primarySel.bind trimmedNonempty with
    | some t => some t
    | none =>
      match shippingCell.fallbackSel.bind trimmedNonempty with
      | some t => some t
      | none => trimmedNonempty shippingCell.text
  else
    none

/-- `extractQuantityToShipFromRow` (background.js:579): needs at least 11
cells; column 11 (index 10); primary selector then cell text. -/
def extractQuantityToShipFromRow (row : Row) : Option String :=
  if 11 ≤ row.length then
    let quantityCell := cellAt row 10
    match quantityCell.primarySel.bind trimmedNonempty with
    | some t => some t
    | none => trimmedNonempty quantityCell.text
  else
    none

/-- JS `Set.add` as observed through `Array.from`: keep first occurrence. -/
def insertOrderNumber (acc : List String) (n : String) : List String :=
  if n ∈ acc then acc else acc ++ [n]

/-- One row of `getAllOrderNumbersFromPage`: extract, skip null, add to set. -/
def collectOrderNumber (acc : List String) (row : Row) : List String :=
  match extractOrderNumberFromRow row with
  | some n => insertOrderNumber acc n
  | none => acc

/-- `getAllOrderNumbersFromPage` (background.js:874): extract each row's order
number, skip nulls, collect into a `Set`, return as an array. -/
def getAllOrderNumbersFromPage (rows : List Row) : List String :=
  rows.foldl collectOrderNumber []

/-- `addUSPSButtonsToTable` (background.js:433) per-row decision: a row gets a
new USPS button exactly when it has at least 3 cells and its third cell does
not already contain one. -/
def rowGetsUSPSButton (row : Row) (hasExistingButton : Bool) : Bool :=
  decide (3 ≤ row.length) && !hasExistingButton

/-- `createUSPSButtonWithOrderNumber` (background.js:619): the injected
button's id is the order number, or `'unknown-order'` when extraction failed. -/
def uspsButtonId (orderNumber : Option String) : String :=
  orDefault orderNumber "unknown-order"

/-! ## Scraped row data (`extractTableDataForOrders`, background.js:900) -/

/-- Per-row scraped data: shipping rate text and quantity text, both nullable. -/
structure ScrapedRow where
  veeqo_shipping_rate : Option String
  quantity_to_ship : Option String
deriving DecidableEq

/-- One row of `extractTableDataForOrders`: when the row's order number is
among the requested ones, record its scraped shipping rate and quantity. -/
def scrapeStep (orderNumbers : List String) (acc : List (String × ScrapedRow))
    (row : Row) : List (String × ScrapedRow) :=
  match extractOrderNumberFromRow row with
  | some n =>
    if n ∈ orderNumbers then
      setKey acc n
        { veeqo_shipping_rate := extractVeeqoShippingRateFromRow row
          quantity_to_ship := extractQuantityToShipFromRow row }
    else acc
  | none => acc

/-- `extractTableDataForOrders`: for each row whose order number is in the
requested list, record the scraped shipping rate and quantity under that
order number. -/
def extractTableDataForOrders (orderNumbers : List String) (rows : List Row) :
    List (String × ScrapedRow) :=
  rows.foldl (scrapeStep orderNumbers) []

/-- An order number "has any non-null scraped data": the scraped row-data map
holds an entry for it with a non-null shipping rate or quantity. -/
def hasScrapedData (td : List (String × ScrapedRow)) (n : String) : Bool :=
  match lookupKey td n with
  | some sd => sd.veeqo_shipping_rate.isSome || sd.quantity_to_ship.isSome
  | none => false

/-! ## Vendor API order records -/

/-- `line_items[i].sellable`. -/
structure Sellable where
  sku_code : Option String
deriving DecidableEq

/-- One line item of an API order. -/
structure LineItem where
  sellable : Option Sellable
deriving DecidableEq

/-- `allocations[i].allocation_package`: package dimensions in ounces and
inches, modelled as integral counts. -/
structure AllocationPackage where
  weight : Option Nat
  length : Option Nat
  width : Option Nat
  height : Option Nat
  depth : Option Nat
deriving DecidableEq

/-- One allocation entry of an API order. -/
structure Allocation where
  allocation_package : Option AllocationPackage
deriving DecidableEq

/-- `delivery_method` of an API order. -/
structure DeliveryMethod where
  name : Option String
deriving DecidableEq

/-- Customer subobject of an API order (only the fields the code reads). -/
structure Customer where
  name : Option String
  email : Option String
deriving DecidableEq

/-- `deliver_to` shipping address of an API order. -/
structure ShippingAddress where
  first_name : Option String
  last_name : Option String
  company : Option String
  address1 : Option String
  address2 : Option String
  city : Option String
  state : Option String
  zip : Option String
deriving DecidableEq

/-- An order as returned by the Veeqo API (the fields the code reads). -/
structure ApiOrder where
  id : Option Nat
  sales_record_number : Option String
  number : Option String
  status : Option String
  total_price : Option String
  currency_code : Option String
  delivery_method : Option DeliveryMethod
  deliver_to : Option ShippingAddress
  customer : Option Customer
  line_items : Option (List LineItem)
  allocations : Option (List Allocation)
deriving DecidableEq

/-- `apiOrder.line_items?.map(item => item.sellable?.sku_code).filter(Boolean)
|| []` (background.js:1070). -/
def skuCodesOf (o : ApiOrder) : List String :=
  ((o.line_items.getD []).map (fun it => it.sellable.bind Sellable.sku_code)).filterMap
    (fun x =>
      match x with
      | some s => if s = "" then none else some s
      | none => none)

/-- `apiOrder.allocations[0].allocation_package` when the allocations array is
non-empty (background.js:1085). -/
def allocationPackageOf (o : ApiOrder) : Option AllocationPackage :=
  match o.allocations with
  | some (a :: _) => a.allocation_package
  | _ => none

/-! ## API response envelope probing (background.js:1001) -/

/-- The `data.data` nested envelope: `data.data.orders || data.data`. -/
structure NestedData where
  orders : Option (List ApiOrder)
  self : List ApiOrder
deriving DecidableEq

/-- The response `data` field as the probing code distinguishes it: the data
itself as an array, an `orders` field, a `results` field, a nested `data`
field, and any arrays among the remaining keys in key order. -/
structure ApiData where
  asArray : Option (List ApiOrder)
  orders : Option (List ApiOrder)
  results : Option (List ApiOrder)
  dataField : Option NestedData
  otherArrays : List (List ApiOrder)
deriving DecidableEq

/-- The probing chain of background.js:1001-1030: direct array, `data.orders`,
`data.results`, `data.data.orders || data.data`, first array among the other
keys, else the empty array. -/
def extractOrdersArray (d : ApiData) : List ApiOrder :=
  match d.asArray with
  | some os => os
  | none =>
    match d.orders with
    | some os => os
    | none =>
      match d.results with
      | some os => os
      | none =>
        match d.dataField with
        | some nd => nd.orders.getD nd.self
        | none => d.otherArrays.headD []

/-- The `{success, data, error}` envelope the relay returns for the bulk
order fetch. -/
structure ApiResponse where
  success : Bool
  data : ApiData
  error : Option String
deriving DecidableEq

/-- Outcome of awaiting the relayed bulk API call: the promise either rejects
(thrown error / timeout) or resolves, possibly with a null response. -/
inductive FetchResult where
  | thrown (message : String)
  | resolved (resp : Option ApiResponse)
deriving DecidableEq

/-! ## Reconciliation (`fetchAllOrderData`, background.js:949) -/

/-- The merged per-order record stored in the cache (`extractedData` of
background.js:1094 for API matches, the partial record of background.js:1121
otherwise). -/
structure ReconciledOrder where
  deliver_to : Option String
  sku_codes : List String
  allocation_package : Option AllocationPackage
  line_items : List LineItem
  shipping_addresses : Option ShippingAddress
  customer : Option Customer
  sales_record_number : String
  reference_number : String
  id : Option Nat
  number : Option String
  status : Option String
  total_price : Option String
  currency_code : Option String
  veeqo_shipping_rate : Option String
  quantity_to_ship : Option String
deriving DecidableEq

/-- The cache dictionary: order number to reconciled record. -/
abbrev OrderDataMap := List (String × ReconciledOrder)

/-- The matched branch of the reconciliation loop (background.js:1068-1114). -/
def reconcileMatched (n : String) (apiOrder : ApiOrder)
    (htmlData : Option ScrapedRow) : ReconciledOrder :=
  let skuCodes := skuCodesOf apiOrder
  let quantityToShip := orDefault (htmlData.bind ScrapedRow.quantity_to_ship) "1"
  let formattedReferenceNumber :=
    if 0 < skuCodes.length then
      quantityToShip ++ " x " ++ String.intercalate ", " skuCodes
    else quantityToShip
  { deliver_to := orNull (apiOrder.delivery_method.bind DeliveryMethod.name)
    sku_codes := skuCodes
    allocation_package := allocationPackageOf apiOrder
    line_items := apiOrder.line_items.getD []
    shipping_addresses := apiOrder.deliver_to
    customer := apiOrder.customer
    sales_record_number := orDefault apiOrder.sales_record_number n
    reference_number := formattedReferenceNumber
    id := apiOrder.id
    number := orNull apiOrder.number
    status := orNull apiOrder.status
    total_price := orNull apiOrder.total_price
    currency_code := orNull apiOrder.currency_code
    veeqo_shipping_rate := orNull (htmlData.bind ScrapedRow.veeqo_shipping_rate)
    quantity_to_ship := some quantityToShip }

/-- The unmatched branch (background.js:1119-1128): keep a partial record when
any scraped field is truthy, otherwise store nothing. -/
def reconcileUnmatched (n : String) (htmlData : Option ScrapedRow) :
    Option ReconciledOrder :=
  let hRate := htmlData.bind ScrapedRow.veeqo_shipping_rate
  let hQty := htmlData.bind ScrapedRow.quantity_to_ship
  if optTruthy hRate || optTruthy hQty then
    some
      { deliver_to := none
        sku_codes := []
        allocation_package := none
        line_items := []
        shipping_addresses := none
        customer := none
        sales_record_number := n
        reference_number := orDefault hQty "1"
        id := none
        number := none
        status := none
        total_price := none
        currency_code := none
        veeqo_shipping_rate := orNull hRate
        quantity_to_ship := orNull hQty }
  else none

/-- One iteration of the `for (const orderNumber of orderNumbers)` loop. -/
def processOne (apiMap : List (String × ApiOrder)) (td : List (String × ScrapedRow))
    (acc : OrderDataMap) (n : String) : OrderDataMap :=
  let htmlData := lookupKey td n
  match lookupKey apiMap n with
  | some apiOrder => setKey acc n (reconcileMatched n apiOrder htmlData)
  | none =>
    match reconcileUnmatched n htmlData with
    | some r => setKey acc n r
    | none => acc

/-- The reconciliation loop over all requested order numbers. -/
def processOrders (apiMap : List (String × ApiOrder))
    (td : List (String × ScrapedRow)) (ons : List String) : OrderDataMap :=
  ons.foldl (processOne apiMap td) []

/-- Condition under which the reconciliation loop stores a record for an order
number: an API match exists, or the unmatched branch keeps a partial record. -/
def orderCond (apiMap : List (String × ApiOrder)) (td : List (String × ScrapedRow))
    (n : String) : Bool :=
  (lookupKey apiMap n).isSome || (reconcileUnmatched n (lookupKey td n)).isSome

/-- `sales_record_number`-keyed lookup dictionary (background.js:1044-1049):
orders whose `sales_record_number` is truthy, later entries overwriting. -/
def buildApiOrderMap (orders : List ApiOrder) : List (String × ApiOrder) :=
  orders.foldl
    (fun acc o =>
      match o.sales_record_number with
      | some s => if s = "" then acc else setKey acc s o
      | none => acc)
    []

/-- `fetchAllOrderData` (background.js:949): context and API-key guards, the
awaited relay call (throw propagates), null / unsuccessful response checks,
envelope probing, dictionary build, table scrape, reconciliation loop. -/
def fetchAllOrderData (ctxValid : Bool) (apiKey : Option String)
    (orderNumbers : List String) (apiResult : FetchResult) (rows : List Row) :
    Except String OrderDataMap :=
  if !ctxValid then
    .error "Extension context invalidated. Please reload the page."
  else if !optTruthy apiKey then
    .error "Veeqo API key not configured. Please set it in extension settings."
  else
    match apiResult with
    | .thrown msg => .error msg
    | .resolved respOpt =>
      match respOpt with
      | none => .error "Failed to fetch orders from API: Unknown error"
      | some resp =>
        if !resp.success then
          .error ("Failed to fetch orders from API: " ++ orDefault resp.error "Unknown error")
        else
          let allOrders := extractOrdersArray resp.data
          let apiMap := buildApiOrderMap allOrders
          let td := extractTableDataForOrders orderNumbers rows
          .ok (processOrders apiMap td orderNumbers)

/-! ## Local cache and the Fill Order Data click handler -/

/-- `getStoredOrderData` (background.js:663): parse the stored blob and read
`allOrderData[orderNumber] || null`; `null` when nothing is stored. -/
def getStoredOrderData (storage : Option OrderDataMap) (orderNumber : String) :
    Option ReconciledOrder :=
  match storage with
  | some m => lookupKey m orderNumber
  | none => none

/-- Externally visible outcome of one Fill Order Data click: the cache entry
after the click, the alert shown (if any), and any exception escaping the
handler. -/
structure ClickOutcome where
  storage : Option OrderDataMap
  alertMessage : Option String
  uncaughtError : Option String
deriving DecidableEq

/-- The exception the catch block of `handleFillOrderDataClick` itself raises:
`progressInterval` is a `const` scoped to the `try` block, so the catch block's
`clearInterval(progressInterval)` (background.js:858) throws before the
`alert` on background.js:860 is reached. -/
def referenceErrorMessage : String :=
  "ReferenceError: progressInterval is not defined"

/-- `handleFillOrderDataClick` (background.js:803): collect order numbers,
bail out with an alert when none; on success overwrite the
`veeqoOrderData` entry wholesale; on a thrown reconciliation error the catch
block crashes on the out-of-scope `progressInterval` before alerting, leaving
the stored cache untouched. -/
def handleFillOrderDataClick (storage : Option OrderDataMap) (rows : List Row)
    (ctxValid : Bool) (apiKey : Option String) (apiResult : FetchResult) :
    ClickOutcome :=
  let ons := getAllOrderNumbersFromPage rows
  if ons.length = 0 then
    { storage := storage
      alertMessage := some "No order numbers found on this page"
      uncaughtError := none }
  else
    match fetchAllOrderData ctxValid apiKey ons apiResult rows with
    | .ok m =>
      { storage := some m, alertMessage := none, uncaughtError := none }
    | .error _ =>
      { storage := storage
        alertMessage := none
        uncaughtError := some referenceErrorMessage }

/-! ## Same-Origin API Relay (`src/js/api-proxy.js`) -/

/-- An HTTP response as the relay sees it: status, body text, parsed JSON
payload. `response.ok` is status 200-299. -/
structure HttpResponse (α : Type) where
  status : Nat
  body : String
  json : α
deriving DecidableEq

/-- `fetch(...)` either resolves with a response or rejects with a network
exception carrying a message. -/
inductive FetchOutcome (α : Type) where
  | success (resp : HttpResponse α)
  | failure (message : String)
deriving DecidableEq

/-- The `{success, data?, error?}` result every relay operation returns. -/
structure ApiCallResult (α : Type) where
  success : Bool
  data : Option α
  error : Option String
deriving DecidableEq

/-- `response.ok`. -/
def respOk {α : Type} (r : HttpResponse α) : Bool :=
  200 ≤ r.status && r.status ≤ 299

/-- `testVeeqoApi` (api-proxy.js:92): on non-ok the error carries status and
body; exceptions yield the exception message. -/
def testVeeqoApi {α : Type} (outcome : FetchOutcome α) : ApiCallResult α :=
  match outcome with
  | .failure msg => { success := false, data := none, error := some msg }
  | .success r =>
    if respOk r then { success := true, data := some r.json, error := none }
    else
      { success := false
        data := none
        error := some ("API request failed with status: " ++ toString r.status
          ++ " - " ++ r.body) }

/-- `fetchVeeqoOrders` (api-proxy.js:126): on non-ok the error carries only
the status (no body text); exceptions yield the exception message. -/
def fetchVeeqoOrders {α : Type} (outcome : FetchOutcome α) : ApiCallResult α :=
  match outcome with
  | .failure msg => { success := false, data := none, error := some msg }
  | .success r =>
    if respOk r then { success := true, data := some r.json, error := none }
    else
      { success := false
        data := none
        error := some ("API request failed with status: " ++ toString r.status) }

/-- `fetchOrderById` (api-proxy.js:160): guard on a falsy order id; on non-ok
the error carries status and body; exceptions yield the exception message. -/
def fetchOrderById {α : Type} (orderId : Option Nat) (outcome : FetchOutcome α) :
    ApiCallResult α :=
  if !natTruthy orderId then
    { success := false, data := none, error := some "No order ID provided" }
  else
    match outcome with
    | .failure msg => { success := false, data := none, error := some msg }
    | .success r =>
      if respOk r then { success := true, data := some r.json, error := none }
      else
        { success := false
          data := none
          error := some ("Order fetch failed with status: " ++ toString r.status
            ++ " - " ++ r.body) }

/-! ## Form Auto-Fill Engine (`src/unnamed/part_010`, `src/js/usps-autofill.js`) -/

/-- Result of `parseCustomerName`. -/
structure ParsedName where
  firstName : String
  middleInitial : String
  lastName : String
deriving DecidableEq

/-- First character of a token, uppercased: `part.charAt(0).toUpperCase()`. -/
def upperFirst (t : String) : String := jsToUpper (jsCharAt0 t)

/-- The token list `fullName.trim().split(/\s+/)`. -/
def nameTokens (s : String) : List String := jsSplitWhitespace (jsTrim s)

/-- `parseCustomerName` (part_010:820): split the trimmed name on whitespace;
1 token is a bare first name, 2 are first/last, 3 add an uppercased middle
initial, more collapse the middle tokens' initials; falsy input gives all
empty fields. -/
def parseCustomerName (fullName : Option String) : ParsedName :=
  match fullName with
  | none => { firstName := "", middleInitial := "", lastName := "" }
  | some s =>
    if s = "" then { firstName := "", middleInitial := "", lastName := "" }
    else
      match nameTokens s with
      | [] => { firstName := "", middleInitial := "", lastName := "" }
      | [a] => { firstName := a, middleInitial := "", lastName := "" }
      | [a, b] => { firstName := a, middleInitial := "", lastName := b }
      | [a, b, c] => { firstName := a, middleInitial := upperFirst b, lastName := c }
      | a :: rest =>
        { firstName := a
          middleInitial := String.join (rest.dropLast.map upperFirst)
          lastName := rest.getLastD "" }

/-- The fill-stage default of usps-autofill.js:161: `nameParts.lastName || '.'`. -/
def fillLastNameValue (lastName : String) : String :=
  if lastName = "" then "." else lastName

/-- `convertStateToCode`'s static lookup table (part_010:787). -/
def stateMap : List (String × String) :=
  [("Alabama", "AL"), ("Alaska", "AK"), ("Arizona", "AZ"), ("Arkansas", "AR"),
   ("California", "CA"), ("Colorado", "CO"), ("Connecticut", "CT"),
   ("Delaware", "DE"), ("Florida", "FL"), ("Georgia", "GA"), ("Hawaii", "HI"),
   ("Idaho", "ID"), ("Illinois", "IL"), ("Indiana", "IN"), ("Iowa", "IA"),
   ("Kansas", "KS"), ("Kentucky", "KY"), ("Louisiana", "LA"), ("Maine", "ME"),
   ("Maryland", "MD"), ("Massachusetts", "MA"), ("Michigan", "MI"),
   ("Minnesota", "MN"), ("Mississippi", "MS"), ("Missouri", "MO"),
   ("Montana", "MT"), ("Nebraska", "NE"), ("Nevada", "NV"),
   ("New Hampshire", "NH"), ("New Jersey", "NJ"), ("New Mexico", "NM"),
   ("New York", "NY"), ("North Carolina", "NC"), ("North Dakota", "ND"),
   ("Ohio", "OH"), ("Oklahoma", "OK"), ("Oregon", "OR"), ("Pennsylvania", "PA"),
   ("Rhode Island", "RI"), ("South Carolina", "SC"), ("South Dakota", "SD"),
   ("Tennessee", "TN"), ("Texas", "TX"), ("Utah", "UT"), ("Vermont", "VT"),
   ("Virginia", "VA"), ("Washington", "WA"), ("West Virginia", "WV"),
   ("Wisconsin", "WI"), ("Wyoming", "WY"), ("District of Columbia", "DC")]

/-- The 51 two-letter codes (`Object.values(stateMap)`). -/
def stateCodes : List String := stateMap.map Prod.snd

/-- `convertStateToCode` (part_010:782): falsy input gives `""`; a two-letter
input already matching a code (case-insensitively) is returned uppercased;
otherwise the trimmed input is looked up as a full state name, default `""`. -/
def convertStateToCode (stateName : Option String) : String :=
  match stateName with
  | none => ""
  | some s =>
    if s = "" then ""
    else
      if s.length = 2 ∧ jsToUpper s ∈ stateCodes then jsToUpper s
      else
        match lookupKey stateMap (jsTrim s) with
        | some code => code
        | none => ""

/-- The pounds value `fillPackageInformation` / `fillPackageInformationDirectly`
(part_010:633, part_010:556) writes into the weight field: nothing without an
`allocation_package` or with a falsy weight, else
`Math.floor(parseFloat(weight) / 16)`. -/
def fillPackageWeightValue (orderData : ReconciledOrder) : Option Nat :=
  match orderData.allocation_package with
  | none => none
  | some pkg =>
    match pkg.weight with
    | some w => if w ≠ 0 then some (w / 16) else none
    | none => none

/-! ## Concrete fixtures used by witnesses, counterexamples and the
end-to-end scenario -/

/-- A cell whose primary selector target holds `p` and whose own text is `t`. -/
def mkCell (p : Option String) (t : String) : Cell :=
  { primarySel := p, fallbackSel := none, text := t }

/-- An empty cell. -/
def blankCell : Cell := mkCell none ""

/-- The scenario row of §8: order number "ABC123" in column 4, shipping rate
"$5.99" in column 7, quantity "2" in column 11. -/
def c6Row : Row :=
  [blankCell, blankCell, blankCell, mkCell (some "ABC123") "ABC123", blankCell,
   blankCell, mkCell (some "$5.99") "$5.99", blankCell, blankCell, blankCell,
   mkCell (some "2") "2"]

/-- The scenario order's shipping address. -/
def c6Addr : ShippingAddress :=
  ⟨some "Jane", some "Doe", none, some "1 Main St", none, some "Austin",
   some "Texas", some "78701"⟩

/-- The scenario API order: matching sales record number, two line items with
SKUs "X1" and "X2", one allocation with a 48oz package. -/
def c6Order : ApiOrder :=
  ⟨some 77, some "ABC123", some "ABC123", some "awaiting_fulfillment",
   some "20.00", some "USD", some ⟨some "Standard"⟩, some c6Addr,
   some ⟨some "Jane Doe", none⟩,
   some [⟨some ⟨some "X1"⟩⟩, ⟨some ⟨some "X2"⟩⟩],
   some [⟨some ⟨some 48, some 10, some 6, some 4, some 10⟩⟩]⟩

/-- The scenario bulk-fetch response: success, direct-array envelope. -/
def c6Resp : ApiResponse :=
  ⟨true, ⟨some [c6Order], none, none, none, []⟩, none⟩

/-- The reconciled record the pipeline produces for the scenario order. -/
def c6Expected : ReconciledOrder :=
  ⟨some "Standard", ["X1", "X2"], some ⟨some 48, some 10, some 6, some 4, some 10⟩,
   [⟨some ⟨some "X1"⟩⟩, ⟨some ⟨some "X2"⟩⟩], some c6Addr,
   some ⟨some "Jane Doe", none⟩, "ABC123", "2 x X1, X2", some 77, some "ABC123",
   some "awaiting_fulfillment", some "20.00", some "USD", some "$5.99", some "2"⟩

/-- A row with exactly 3 cells: below the extractor's 4-column minimum but at
the button-injection minimum of 3. -/
def c4Row : Row := [mkCell none "x", mkCell none "y", mkCell none "z"]

/-- A row with only 2 cells. -/
def c4ShortRow : Row := [mkCell none "x", mkCell none "y"]

/-- A 7-cell row with order number "B" and shipping rate "$1.00" but no
quantity column. -/
def rowB : Row :=
  [blankCell, blankCell, blankCell, mkCell (some "B") "B", blankCell, blankCell,
   mkCell (some "$1.00") "$1.00"]

/-- A successful bulk response whose order array is empty. -/
def emptyResp : ApiResponse := ⟨true, ⟨some [], none, none, none, []⟩, none⟩

/-- A cached record for order "A" left by an earlier reconciliation pass. -/
def rA : ReconciledOrder :=
  ⟨none, [], none, [], none, none, "A", "1", none, none, none, none, none,
   some "$9.99", none⟩

/-- The partial record the second pass produces for order "B" from scraped
data alone. -/
def rB : ReconciledOrder :=
  ⟨none, [], none, [], none, none, "B", "1", none, none, none, none, none,
   some "$1.00", none⟩

/-- A reconciled record carrying only a package with the given weight. -/
def mkWeightOrder (w : Option Nat) : ReconciledOrder :=
  ⟨none, [], some ⟨w, none, none, none, none⟩, [], none, none, "W", "1", none,
   none, none, none, none, none, none⟩

/-! ## Dictionary lemmas -/

theorem keysOf_setKey {α : Type} (m : List (String × α)) (k : String) (v : α) :
    keysOf (setKey m k v) =
      if k ∈ keysOf m then keysOf m else keysOf m ++ [k] := by
  induction m with
  | nil => simp [setKey, keysOf]
  | cons p rest ih =>
    obtain ⟨k', v'⟩ := p
    by_cases hk : k' = k
    · subst hk
      simp [setKey, keysOf]
    · have hne : ¬k = k' := fun h => hk h.symm
      by_cases hm : k ∈ List.map Prod.fst rest
      · simp only [setKey, if_neg hk, keysOf, List.map_cons] at ih ⊢
        rw [ih]
        simp [hm, hne]
      · simp only [setKey, if_neg hk, keysOf, List.map_cons] at ih ⊢
        rw [ih]
        simp [hm, hne]

theorem mem_keysOf_setKey_self {α : Type} (m : List (String × α)) (k : String)
    (v : α) : k ∈ keysOf (setKey m k v) := by
  rw [keysOf_setKey]
  by_cases hm : k ∈ keysOf m <;> simp [hm]

theorem mem_keysOf_setKey_of_mem {α : Type} {m : List (String × α)} {j : String}
    (k : String) (v : α) (h : j ∈ keysOf m) : j ∈ keysOf (setKey m k v) := by
  rw [keysOf_setKey]
  by_cases hm : k ∈ keysOf m <;> simp [hm, h]

theorem nodup_keysOf_setKey {α : Type} {m : List (String × α)} (k : String)
    (v : α) (h : (keysOf m).Nodup) : (keysOf (setKey m k v)).Nodup := by
  rw [keysOf_setKey]
  by_cases hm : k ∈ keysOf m
  · simpa [hm] using h
  · simp [hm, List.nodup_append, h]

theorem lookupKey_setKey_self {α : Type} (m : List (String × α)) (k : String)
    (v : α) : lookupKey (setKey m k v) k = some v := by
  induction m with
  | nil => simp [setKey, lookupKey]
  | cons p rest ih =>
    obtain ⟨k', v'⟩ := p
    by_cases hk : k' = k
    · subst hk
      simp [setKey, lookupKey]
    · simp [setKey, lookupKey, hk, ih]

theorem lookupKey_setKey_cases {α : Type} {m : List (String × α)}
    {k j : String} {v w : α} (h : lookupKey (setKey m k v) j = some w) :
    (j = k ∧ w = v) ∨ lookupKey m j = some w := by
  induction m with
  | nil =>
    simp only [setKey, lookupKey] at h
    split at h
    · rename_i hkj
      cases h
      exact Or.inl ⟨hkj.symm, rfl⟩
    · cases h
  | cons p rest ih =>
    obtain ⟨k', v'⟩ := p
    by_cases hk : k' = k
    · subst hk
      simp only [setKey, if_pos rfl, lookupKey] at h ⊢
      split at h
      · rename_i hkj
        cases h
        exact Or.inl ⟨hkj.symm, rfl⟩
      · rename_i hkj
        rw [if_neg hkj]
        exact Or.inr h
    · simp only [setKey, if_neg hk, lookupKey] at h ⊢
      split at h
      · rename_i hkj
        rw [if_pos hkj]
        exact Or.inr h
      · rename_i hkj
        rw [if_neg hkj]
        exact ih h

theorem lookupKey_mem_values {α : Type} {m : List (String × α)} {k : String}
    {v : α} (h : lookupKey m k = some v) : v ∈ m.map Prod.snd := by
  induction m with
  | nil => cases h
  | cons p rest ih =>
    obtain ⟨k', v'⟩ := p
    simp only [lookupKey] at h
    split at h
    · cases h
      simp
    · simp [ih h]

/-! ## Extractor lemmas: scraped values are never the empty string -/

theorem trimmedNonempty_ne {s t : String} (h : trimmedNonempty s = some t) :
    t ≠ "" := by
  simp only [trimmedNonempty] at h
  split at h
  · cases h
  · cases h
    assumption

theorem bind_trimmedNonempty_ne {o : Option String} {t : String}
    (h : o.bind trimmedNonempty = some t) : t ≠ "" := by
  cases o with
  | none => cases h
  | some s => exact trimmedNonempty_ne h

theorem extractVeeqoShippingRateFromRow_ne {row : Row} {s : String}
    (h : extractVeeqoShippingRateFromRow row = some s) : s ≠ "" := by
  simp only [extractVeeqoShippingRateFromRow] at h
  split at h
  · split at h
    · cases h
      exact bind_trimmedNonempty_ne (by assumption)
    · split at h
      · cases h
        exact bind_trimmedNonempty_ne (by assumption)
      · exact trimmedNonempty_ne h
  · cases h

theorem extractQuantityToShipFromRow_ne {row : Row} {s : String}
    (h : extractQuantityToShipFromRow row = some s) : s ≠ "" := by
  simp only [extractQuantityToShipFromRow] at h
  split at h
  · split at h
    · cases h
      exact bind_trimmedNonempty_ne (by assumption)
    · exact trimmedNonempty_ne h
  · cases h

/-- Values the scraper can produce: any present field is a non-empty string. -/
def scrapedOk (sd : ScrapedRow) : Prop :=
  (∀ s, sd.veeqo_shipping_rate = some s → s ≠ "") ∧
  (∀ s, sd.quantity_to_ship = some s → s ≠ "")

theorem scrapedOk_extract (row : Row) :
    scrapedOk
      { veeqo_shipping_rate := extractVeeqoShippingRateFromRow row
        quantity_to_ship := extractQuantityToShipFromRow row } := by
  constructor
  · intro s hs
    exact extractVeeqoShippingRateFromRow_ne hs
  · intro s hs
    exact extractQuantityToShipFromRow_ne hs

theorem scrapedOk_foldl_scrapeStep (ons : List String) :
    ∀ (rows : List Row) (acc : List (String × ScrapedRow)),
      (∀ k sd, lookupKey acc k = some sd → scrapedOk sd) →
      ∀ k sd, lookupKey (rows.foldl (scrapeStep ons) acc) k = some sd →
        scrapedOk sd := by
  intro rows
  induction rows with
  | nil =>
    intro acc hacc k sd h
    exact hacc k sd h
  | cons row rest ih =>
    intro acc hacc k sd h
    refine ih (scrapeStep ons acc row) ?_ k sd h
    intro k' sd' h'
    simp only [scrapeStep] at h'
    split at h'
    · split at h'
      · rcases lookupKey_setKey_cases h' with ⟨_, hv⟩ | hold
        · subst hv
          exact scrapedOk_extract row
        · exact hacc k' sd' hold
      · exact hacc k' sd' h'
    · exact hacc k' sd' h'

theorem lookupKey_extractTableData_scrapedOk {ons : List String}
    {rows : List Row} {k : String} {sd : ScrapedRow}
    (h : lookupKey (extractTableDataForOrders ons rows) k = some sd) :
    scrapedOk sd := by
  refine scrapedOk_foldl_scrapeStep ons rows [] ?_ k sd h
  intro k' sd' h'
  cases h'

/-! ## Order-number list lemmas -/

theorem nodup_insertOrderNumber {acc : List String} (n : String)
    (h : acc.Nodup) : (insertOrderNumber acc n).Nodup := by
  simp only [insertOrderNumber]
  split
  · exact h
  · simp [List.nodup_append, h]
    assumption

theorem mem_insertOrderNumber_self (acc : List String) (n : String) :
    n ∈ insertOrderNumber acc n := by
  simp only [insertOrderNumber]
  split
  · assumption
  · simp

theorem mem_insertOrderNumber_of_mem {acc : List String} {j : String}
    (n : String) (h : j ∈ acc) : j ∈ insertOrderNumber acc n := by
  simp only [insertOrderNumber]
  split
  · exact h
  · simp [h]

theorem mem_insertOrderNumber_elim {acc : List String} {j n : String}
    (h : j ∈ insertOrderNumber acc n) : j ∈ acc ∨ j = n := by
  simp only [insertOrderNumber] at h
  split at h
  · exact Or.inl h
  · simpa using h

theorem nodup_foldl_collectOrderNumber :
    ∀ (rows : List Row) (acc : List String), acc.Nodup →
      (rows.foldl collectOrderNumber acc).Nodup := by
  intro rows
  induction rows with
  | nil =>
    intro acc h
    exact h
  | cons row rest ih =>
    intro acc h
    refine ih (collectOrderNumber acc row) ?_
    simp only [collectOrderNumber]
    split
    · exact nodup_insertOrderNumber _ h
    · exact h

theorem nodup_getAllOrderNumbersFromPage (rows : List Row) :
    (getAllOrderNumbersFromPage rows).Nodup :=
  nodup_foldl_collectOrderNumber rows [] List.nodup_nil

theorem mem_foldl_collectOrderNumber_elim :
    ∀ (rows : List Row) (acc : List String) (n : String),
      n ∈ rows.foldl collectOrderNumber acc →
      n ∈ acc ∨ ∃ row ∈ rows, extractOrderNumberFromRow row = some n := by
  intro rows
  induction rows with
  | nil =>
    intro acc n h
    exact Or.inl h
  | cons row rest ih =>
    intro acc n h
    rcases ih (collectOrderNumber acc row) n h with hacc | ⟨r, hr, he⟩
    · simp only [collectOrderNumber] at hacc
      split at hacc
      · rcases mem_insertOrderNumber_elim hacc with h' | h'
        · exact Or.inl h'
        · subst h'
          exact Or.inr ⟨row, by simp, by assumption⟩
      · exact Or.inl hacc
    · exact Or.inr ⟨r, by simp [hr], he⟩

theorem mem_foldl_collectOrderNumber_of_mem :
    ∀ (rows : List Row) (acc : List String) {n : String}, n ∈ acc →
      n ∈ rows.foldl collectOrderNumber acc := by
  intro rows
  induction rows with
  | nil =>
    intro acc n h
    exact h
  | cons row rest ih =>
    intro acc n h
    refine ih (collectOrderNumber acc row) ?_
    simp only [collectOrderNumber]
    split
    · exact mem_insertOrderNumber_of_mem _ h
    · exact h

theorem mem_foldl_collectOrderNumber_of_extract :
    ∀ (rows : List Row) (acc : List String) {row : Row} {n : String},
      row ∈ rows → extractOrderNumberFromRow row = some n →
      n ∈ rows.foldl collectOrderNumber acc := by
  intro rows
  induction rows with
  | nil =>
    intro acc row n h
    cases h
  | cons r rest ih =>
    intro acc row n hmem he
    rcases List.mem_cons.mp hmem with h | h
    · subst h
      refine mem_foldl_collectOrderNumber_of_mem rest (collectOrderNumber acc row) ?_
      simp only [collectOrderNumber, he]
      exact mem_insertOrderNumber_self acc n
    · exact ih (collectOrderNumber acc r) h he

/-! ## Reconciliation loop lemmas -/

theorem mem_keysOf_processOne_of_mem {apiMap : List (String × ApiOrder)}
    {td : List (String × ScrapedRow)} {acc : OrderDataMap} {j : String}
    (n : String) (h : j ∈ keysOf acc) :
    j ∈ keysOf (processOne apiMap td acc n) := by
  simp only [processOne]
  split
  · exact mem_keysOf_setKey_of_mem _ _ h
  · split
    · exact mem_keysOf_setKey_of_mem _ _ h
    · exact h

theorem mem_keysOf_processOne_self {apiMap : List (String × ApiOrder)}
    {td : List (String × ScrapedRow)} (acc : OrderDataMap) {n : String}
    (h : orderCond apiMap td n = true) :
    n ∈ keysOf (processOne apiMap td acc n) := by
  simp only [orderCond, Bool.or_eq_true, Option.isSome_iff_exists] at h
  simp only [processOne]
  split
  · exact mem_keysOf_setKey_self _ _ _
  · rename_i hnone
    rcases h with ⟨o, ho⟩ | ⟨r, hr⟩
    · rw [hnone] at ho
      cases ho
    · rw [hr]
      exact mem_keysOf_setKey_self _ _ _

theorem nodup_keysOf_processOne {apiMap : List (String × ApiOrder)}
    {td : List (String × ScrapedRow)} {acc : OrderDataMap} (n : String)
    (h : (keysOf acc).Nodup) : (keysOf (processOne apiMap td acc n)).Nodup := by
  simp only [processOne]
  split
  · exact nodup_keysOf_setKey _ _ h
  · split
    · exact nodup_keysOf_setKey _ _ h
    · exact h

theorem mem_keysOf_foldl_processOne_of_mem
    (apiMap : List (String × ApiOrder)) (td : List (String × ScrapedRow)) :
    ∀ (ons : List String) (acc : OrderDataMap) {j : String}, j ∈ keysOf acc →
      j ∈ keysOf (ons.foldl (processOne apiMap td) acc) := by
  intro ons
  induction ons with
  | nil =>
    intro acc j h
    exact h
  | cons n rest ih =>
    intro acc j h
    exact ih (processOne apiMap td acc n) (mem_keysOf_processOne_of_mem n h)

theorem mem_keysOf_foldl_processOne
    (apiMap : List (String × ApiOrder)) (td : List (String × ScrapedRow)) :
    ∀ (ons : List String) (acc : OrderDataMap) {n : String}, n ∈ ons →
      orderCond apiMap td n = true →
      n ∈ keysOf (ons.foldl (processOne apiMap td) acc) := by
  intro ons
  induction ons with
  | nil =>
    intro acc n h
    cases h
  | cons n0 rest ih =>
    intro acc n hmem hc
    rcases List.mem_cons.mp hmem with h | h
    · subst h
      exact mem_keysOf_foldl_processOne_of_mem apiMap td rest _
        (mem_keysOf_processOne_self acc hc)
    · exact ih (processOne apiMap td acc n0) h hc

theorem mem_keysOf_processOrders {apiMap : List (String × ApiOrder)}
    {td : List (String × ScrapedRow)} {ons : List String} {n : String}
    (hmem : n ∈ ons) (hc : orderCond apiMap td n = true) :
    n ∈ keysOf (processOrders apiMap td ons) :=
  mem_keysOf_foldl_processOne apiMap td ons [] hmem hc

theorem nodup_keysOf_foldl_processOne
    (apiMap : List (String × ApiOrder)) (td : List (String × ScrapedRow)) :
    ∀ (ons : List String) (acc : OrderDataMap), (keysOf acc).Nodup →
      (keysOf (ons.foldl (processOne apiMap td) acc)).Nodup := by
  intro ons
  induction ons with
  | nil =>
    intro acc h
    exact h
  | cons n rest ih =>
    intro acc h
    exact ih (processOne apiMap td acc n) (nodup_keysOf_processOne n h)

theorem nodup_keysOf_processOrders (apiMap : List (String × ApiOrder))
    (td : List (String × ScrapedRow)) (ons : List String) :
    (keysOf (processOrders apiMap td ons)).Nodup :=
  nodup_keysOf_foldl_processOne apiMap td ons [] List.nodup_nil

/-- Bridge from "has any non-null scraped data" to the loop's storage
condition, using that scraper-produced values are never the empty string. -/
theorem orderCond_of_hasScrapedData {apiMap : List (String × ApiOrder)}
    {td : List (String × ScrapedRow)} {n : String}
    (hok : ∀ k sd, lookupKey td k = some sd → scrapedOk sd)
    (h : hasScrapedData td n = true) : orderCond apiMap td n = true := by
  simp only [hasScrapedData] at h
  split at h
  · rename_i sd hsd
    have hsok := hok n sd hsd
    simp only [orderCond, hsd, Bool.or_eq_true]
    refine Or.inr ?_
    simp only [reconcileUnmatched, Option.bind_some]
    rcases Bool.or_eq_true _ _ |>.mp h with hrate | hqty
    · rw [Option.isSome_iff_exists] at hrate
      obtain ⟨s, hs⟩ := hrate
      have hne : s ≠ "" := hsok.1 s hs
      rw [if_pos]
      · simp
      · simp [optTruthy, hs, hne]
    · rw [Option.isSome_iff_exists] at hqty
      obtain ⟨s, hs⟩ := hqty
      have hne : s ≠ "" := hsok.2 s hs
      rw [if_pos]
      · simp
      · simp [optTruthy, hs, hne]
  · cases h

/-- A duplicate-free list is no longer than any list containing it. -/
theorem length_le_of_nodup_subset {l₁ l₂ : List String} (h₁ : l₁.Nodup)
    (h : ∀ x ∈ l₁, x ∈ l₂) : l₁.length ≤ l₂.length := by
  have hsub : l₁.toFinset ⊆ l₂.toFinset := by
    intro x hx
    rw [List.mem_toFinset] at hx ⊢
    exact h x hx
  calc l₁.length = l₁.toFinset.card := (List.toFinset_card_of_nodup h₁).symm
    _ ≤ l₂.toFinset.card := Finset.card_le_card hsub
    _ ≤ l₂.length := l₂.toFinset_card_le

/-- Inversion of a successful reconciliation: the bulk call resolved with a
successful response and the result is the reconciliation loop's output. -/
theorem fetchAllOrderData_ok_inv {ctxValid : Bool} {apiKey : Option String}
    {ons : List String} {apiResult : FetchResult} {rows : List Row}
    {m : OrderDataMap}
    (h : fetchAllOrderData ctxValid apiKey ons apiResult rows = .ok m) :
    ∃ resp : ApiResponse, apiResult = .resolved (some resp) ∧
      resp.success = true ∧
      m = processOrders (buildApiOrderMap (extractOrdersArray resp.data))
          (extractTableDataForOrders ons rows) ons := by
  cases apiResult with
  | thrown msg =>
    simp only [fetchAllOrderData] at h
    split at h
    · cases h
    · split at h
      · cases h
      · cases h
  | resolved respOpt =>
    cases respOpt with
    | none =>
      simp only [fetchAllOrderData] at h
      split at h
      · cases h
      · split at h
        · cases h
        · cases h
    | some resp =>
      simp only [fetchAllOrderData] at h
      split at h
      · cases h
      · split at h
        · cases h
        · split at h
          · cases h
          · rename_i hsucc
            refine ⟨resp, rfl, ?_, ?_⟩
            · simpa using hsucc
            · cases h
              rfl

/-! ## Substring lemmas -/

theorem isPrefixList_append (p y : List Char) :
    isPrefixList p (p ++ y) = true := by
  induction p with
  | nil => rfl
  | cons a as ih => simp [isPrefixList, ih]

theorem containsSub_append (p : List Char) :
    ∀ x y : List Char, containsSub p (x ++ (p ++ y)) = true := by
  intro x
  induction x with
  | nil =>
    intro y
    rw [List.nil_append]
    have h1 : isPrefixList p (p ++ y) = true := isPrefixList_append p y
    cases hpe : p ++ y with
    | nil =>
      rw [hpe] at h1
      simp only [containsSub]
      exact h1
    | cons c t =>
      rw [hpe] at h1
      simp only [containsSub]
      rw [h1]
      simp
  | cons a x' ih =>
    intro y
    rw [List.cons_append]
    simp only [containsSub]
    rw [ih y]
    simp

theorem strContains_of_eq_append (s x p y : String) (h : s = x ++ (p ++ y)) :
    strContains s p = true := by
  subst h
  show containsSub p.data (x ++ (p ++ y)).data = true
  have hdata : (x ++ (p ++ y)).data = x.data ++ (p.data ++ y.data) := rfl
  rw [hdata]
  exact containsSub_append p.data x.data y.data

/-! ## Claim theorems -/

/-- C1: For every list of scraped OrderNumbers and every scraped row-data map,
the CacheEntry produced by reconciliation (`fetchAllOrderData`) contains a key
for every OrderNumber that has any non-null scraped data, even when no API
record matches it, so the number of output keys is at least the number of
input OrderNumbers with non-null scraped data. -/
theorem C1_reconciliation_keeps_scraped_orders
    (rows : List Row) (ctxValid : Bool) (apiKey : Option String)
    (apiResult : FetchResult) (m : OrderDataMap)
    (h : fetchAllOrderData ctxValid apiKey (getAllOrderNumbersFromPage rows)
        apiResult rows = .ok m) :
    (∀ n ∈ getAllOrderNumbersFromPage rows,
        hasScrapedData
          (extractTableDataForOrders (getAllOrderNumbersFromPage rows) rows) n
          = true →
        n ∈ keysOf m) ∧
    ((getAllOrderNumbersFromPage rows).filter
          (hasScrapedData
            (extractTableDataForOrders (getAllOrderNumbersFromPage rows) rows))).length
      ≤ (keysOf m).length := by
  obtain ⟨resp, -, -, hm⟩ := fetchAllOrderData_ok_inv h
  subst hm
  have hok : ∀ k sd,
      lookupKey (extractTableDataForOrders (getAllOrderNumbersFromPage rows) rows) k
        = some sd → scrapedOk sd := by
    intro k sd hk
    exact lookupKey_extractTableData_scrapedOk hk
  have hmem : ∀ n ∈ getAllOrderNumbersFromPage rows,
      hasScrapedData
        (extractTableDataForOrders (getAllOrderNumbersFromPage rows) rows) n = true →
      n ∈ keysOf (processOrders (buildApiOrderMap (extractOrdersArray resp.data))
        (extractTableDataForOrders (getAllOrderNumbersFromPage rows) rows)
        (getAllOrderNumbersFromPage rows)) := by
    intro n hn hd
    exact mem_keysOf_processOrders hn (orderCond_of_hasScrapedData hok hd)
  refine ⟨hmem, ?_⟩
  refine length_le_of_nodup_subset ?_ ?_
  · exact (nodup_getAllOrderNumbersFromPage rows).filter _
  · intro x hx
    rw [List.mem_filter] at hx
    exact hmem x hx.1 hx.2

/-- Witness for C1 at a concrete page: one 7-cell row with order "B" and a
scraped shipping rate, reconciled against an empty API result. -/
theorem C1_witness :
    fetchAllOrderData true (some "key") (getAllOrderNumbersFromPage [rowB])
        (.resolved (some emptyResp)) [rowB] = .ok [("B", rB)] ∧
    ((getAllOrderNumbersFromPage [rowB]).filter
          (hasScrapedData
            (extractTableDataForOrders (getAllOrderNumbersFromPage [rowB]) [rowB]))).length
      ≤ (keysOf [("B", rB)]).length := by
  refine ⟨rfl, ?_⟩
  exact (C1_reconciliation_keeps_scraped_orders [rowB] true (some "key")
    (.resolved (some emptyResp)) [("B", rB)] rfl).2

/-- C2: at the failing input (the bulk fetch rejects), the click handler
leaves the stored `veeqoOrderData` cache untouched, but the error is NOT
surfaced: the catch block crashes on the try-scoped `progressInterval`
before its `alert` runs, so no alert is shown and a ReferenceError escapes. -/
theorem C2_handler_outcome_on_thrown_fetch :
    handleFillOrderDataClick (some [("A", rA)]) [rowB] true (some "key")
        (.thrown "NetworkError when attempting to fetch resource")
      = { storage := some [("A", rA)], alertMessage := none,
          uncaughtError := some referenceErrorMessage } := rfl

/-- C3 counterexample: for the list-orders operation, a 500 response with
body "Internal Server Error" yields an error string that carries the status
but NOT the response body text, refuting the claim that every operation's
error contains both. -/
theorem C3_counterexample :
    (fetchVeeqoOrders (FetchOutcome.success
        (⟨500, "Internal Server Error", ()⟩ : HttpResponse Unit))).success
      = false ∧
    (fetchVeeqoOrders (FetchOutcome.success
        (⟨500, "Internal Server Error", ()⟩ : HttpResponse Unit))).error
      = some "API request failed with status: 500" ∧
    strContains "API request failed with status: 500" "Internal Server Error"
      = false := by
  refine ⟨rfl, rfl, by decide⟩

/-- C3 amended: for test-connection and get-order-by-id, a non-2xx response
yields `{success:false}` with an error containing both the status code and
the response body; for list-orders the error contains the status code only;
for all three operations a network exception yields
`{success:false, error: exception.message}`. -/
theorem C3_relay_failure_semantics {α : Type} (r : HttpResponse α)
    (oid : Option Nat) (msg : String) (hko : respOk r = false)
    (hoid : natTruthy oid = true) :
    ((testVeeqoApi (FetchOutcome.success r)).success = false ∧
      (testVeeqoApi (FetchOutcome.success r)).error
        = some ("API request failed with status: " ++ toString r.status
            ++ " - " ++ r.body) ∧
      strContains ("API request failed with status: " ++ toString r.status
          ++ " - " ++ r.body) (toString r.status) = true ∧
      strContains ("API request failed with status: " ++ toString r.status
          ++ " - " ++ r.body) r.body = true) ∧
    ((fetchOrderById oid (FetchOutcome.success r)).success = false ∧
      (fetchOrderById oid (FetchOutcome.success r)).error
        = some ("Order fetch failed with status: " ++ toString r.status
            ++ " - " ++ r.body) ∧
      strContains ("Order fetch failed with status: " ++ toString r.status
          ++ " - " ++ r.body) (toString r.status) = true ∧
      strContains ("Order fetch failed with status: " ++ toString r.status
          ++ " - " ++ r.body) r.body = true) ∧
    ((fetchVeeqoOrders (FetchOutcome.success r)).success = false ∧
      (fetchVeeqoOrders (FetchOutcome.success r)).error
        = some ("API request failed with status: " ++ toString r.status)) ∧
    (@testVeeqoApi α (FetchOutcome.failure msg)
        = ⟨false, none, some msg⟩ ∧
      @fetchVeeqoOrders α (FetchOutcome.failure msg)
        = ⟨false, none, some msg⟩ ∧
      @fetchOrderById α oid (FetchOutcome.failure msg)
        = ⟨false, none, some msg⟩) := by
  refine ⟨⟨?_, ?_, ?_, ?_⟩, ⟨?_, ?_, ?_, ?_⟩, ⟨?_, ?_⟩, rfl, rfl, ?_⟩
  · simp [testVeeqoApi, hko]
  · simp [testVeeqoApi, hko]
  · exact strContains_of_eq_append _ "API request failed with status: "
      (toString r.status) (" - " ++ r.body)
      (by rw [String.append_assoc, String.append_assoc])
  · exact strContains_of_eq_append _
      ("API request failed with status: " ++ toString r.status ++ " - ")
      r.body ""
      (by rw [String.append_empty])
  · simp [fetchOrderById, hoid, hko]
  · simp [fetchOrderById, hoid, hko]
  · exact strContains_of_eq_append _ "Order fetch failed with status: "
      (toString r.status) (" - " ++ r.body)
      (by rw [String.append_assoc, String.append_assoc])
  · exact strContains_of_eq_append _
      ("Order fetch failed with status: " ++ toString r.status ++ " - ")
      r.body ""
      (by rw [String.append_empty])
  · simp [fetchVeeqoOrders, hko]
  · simp [fetchVeeqoOrders, hko]
  · simp [fetchOrderById, hoid]

/-- Witness for the amended C3 at a concrete non-2xx response and a concrete
network exception. -/
theorem C3_witness :
    (testVeeqoApi (FetchOutcome.success
        (⟨500, "Internal Server Error", ()⟩ : HttpResponse Unit))).success
      = false ∧
    strContains "API request failed with status: 500 - Internal Server Error"
        "Internal Server Error" = true ∧
    @fetchVeeqoOrders Unit (FetchOutcome.failure "Failed to fetch")
      = ⟨false, none, some "Failed to fetch"⟩ := by
  have h := C3_relay_failure_semantics
    (⟨500, "Internal Server Error", ()⟩ : HttpResponse Unit) (some 7)
    "Failed to fetch" (by decide) (by decide)
  exact ⟨h.1.1, h.1.2.2.2, h.2.2.2.2.1⟩

/-- C4 counterexample: a row with exactly 3 columns is below the extractor's
4-column minimum — extraction yields null and the row contributes no
OrderNumber — yet the row DOES receive an injected USPS button (the injection
threshold is 3 columns), with the placeholder id. -/
theorem C4_counterexample :
    extractOrderNumberFromRow c4Row = none ∧
    getAllOrderNumbersFromPage [c4Row] = [] ∧
    rowGetsUSPSButton c4Row false = true ∧
    uspsButtonId (extractOrderNumberFromRow c4Row) = "unknown-order" :=
  ⟨rfl, rfl, rfl, rfl⟩

/-- C4 amended: rows with fewer than 4 columns yield null extraction and
contribute no OrderNumber; rows with fewer than 3 columns additionally
receive no USPS button; a row with exactly 3 columns still receives one. -/
theorem C4_column_thresholds (row : Row) :
    (row.length < 4 → extractOrderNumberFromRow row = none) ∧
    (row.length < 3 → ∀ b, rowGetsUSPSButton row b = false) ∧
    (extractOrderNumberFromRow row = none →
      ∀ pre post, getAllOrderNumbersFromPage (pre ++ row :: post)
        = getAllOrderNumbersFromPage (pre ++ post)) := by
  refine ⟨?_, ?_, ?_⟩
  · intro h
    simp [extractOrderNumberFromRow, Nat.not_le.mpr h]
  · intro h b
    simp [rowGetsUSPSButton, Nat.not_le.mpr h]
  · intro he pre post
    simp only [getAllOrderNumbersFromPage, List.foldl_append, List.foldl_cons]
    congr 1
    simp [collectOrderNumber, he]

/-- Witness for the amended C4 at a concrete 2-cell row. -/
theorem C4_witness :
    extractOrderNumberFromRow c4ShortRow = none ∧
    rowGetsUSPSButton c4ShortRow false = false ∧
    getAllOrderNumbersFromPage ([] ++ c4ShortRow :: [])
      = getAllOrderNumbersFromPage ([] ++ []) := by
  have h := C4_column_thresholds c4ShortRow
  exact ⟨h.1 (by decide), h.2.1 (by decide) false, h.2.2 (h.1 (by decide)) [] []⟩

/-- C5 counterexample: order "A" is cached by an earlier pass; a second pass
covering only order "B" wholesale-replaces the cache, and a subsequent
`getStoredOrderData "A"` returns null, not the earlier value. -/
theorem C5_counterexample :
    getStoredOrderData (some [("A", rA)]) "A" = some rA ∧
    (handleFillOrderDataClick (some [("A", rA)]) [rowB] true (some "k")
        (.resolved (some emptyResp))).storage = some [("B", rB)] ∧
    getStoredOrderData
        ((handleFillOrderDataClick (some [("A", rA)]) [rowB] true (some "k")
          (.resolved (some emptyResp))).storage) "A" = none :=
  ⟨rfl, rfl, rfl⟩

/-- C5 amended: the cache write is wholesale — after a successful second pass
every key reads back exactly as the second pass's result dictates: its value
for covered keys, and null (none) for keys only present in the earlier cache. -/
theorem C5_wholesale_replace (storage : Option OrderDataMap) (rows : List Row)
    (ctxValid : Bool) (apiKey : Option String) (apiResult : FetchResult)
    (m : OrderDataMap) (hne : getAllOrderNumbersFromPage rows ≠ [])
    (h : fetchAllOrderData ctxValid apiKey (getAllOrderNumbersFromPage rows)
        apiResult rows = .ok m) :
    ∀ k, getStoredOrderData
        ((handleFillOrderDataClick storage rows ctxValid apiKey apiResult).storage) k
      = lookupKey m k := by
  intro k
  have hout : handleFillOrderDataClick storage rows ctxValid apiKey apiResult
      = ⟨some m, none, none⟩ := by
    simp only [handleFillOrderDataClick]
    rw [if_neg (by simpa [List.length_eq_zero] using hne), h]
  rw [hout]
  rfl

/-- Witness for the amended C5: the concrete two-pass scenario of the
counterexample read through the amended statement. -/
theorem C5_witness :
    getStoredOrderData
        ((handleFillOrderDataClick (some [("A", rA)]) [rowB] true (some "k")
          (.resolved (some emptyResp))).storage) "A"
      = lookupKey [("B", rB)] "A" :=
  C5_wholesale_replace (some [("A", rA)]) [rowB] true (some "k")
    (.resolved (some emptyResp)) [("B", rB)] (by decide) rfl "A"

/-- C6: the end-to-end scenario — one row with order "ABC123", rate "$5.99",
quantity "2"; one matching API order with SKUs "X1","X2" and a 48oz package —
reconciles to `reference_number = "2 x X1, X2"`, `quantity_to_ship = "2"`,
and a fill-time pounds value of 3. -/
theorem C6_end_to_end_scenario :
    fetchAllOrderData true (some "key") (getAllOrderNumbersFromPage [c6Row])
        (.resolved (some c6Resp)) [c6Row] = .ok [("ABC123", c6Expected)] ∧
    c6Expected.reference_number = "2 x X1, X2" ∧
    c6Expected.quantity_to_ship = some "2" ∧
    fillPackageWeightValue c6Expected = some 3 :=
  ⟨rfl, rfl, rfl, rfl⟩

/-- C7: the pounds value written to the weight field is the integer floor of
the ounce weight divided by 16 (characterised by the floor inequalities);
weight 32 fills 2 and weight 15 fills 0. -/
theorem C7_weight_floor_division :
    (∀ (o : ReconciledOrder) (pkg : AllocationPackage) (w : Nat),
        o.allocation_package = some pkg → pkg.weight = some w → w ≠ 0 →
        fillPackageWeightValue o = some (w / 16) ∧
          16 * (w / 16) ≤ w ∧ w < 16 * (w / 16) + 16) ∧
    fillPackageWeightValue (mkWeightOrder (some 32)) = some 2 ∧
    fillPackageWeightValue (mkWeightOrder (some 15)) = some 0 := by
  refine ⟨?_, rfl, rfl⟩
  intro o pkg w ho hw hnz
  refine ⟨?_, ?_, ?_⟩
  · simp [fillPackageWeightValue, ho, hw, hnz]
  · have h := Nat.div_mul_le_self w 16
    omega
  · have h1 := Nat.div_add_mod w 16
    have h2 : w % 16 < 16 := Nat.mod_lt _ (by norm_num)
    omega

/-- Witness for C7 at a concrete 48oz weight. -/
theorem C7_witness :
    fillPackageWeightValue (mkWeightOrder (some 48)) = some 3 :=
  (C7_weight_floor_division.1 (mkWeightOrder (some 48))
    ⟨some 48, none, none, none, none⟩ 48 rfl rfl (by decide)).1

/-- C8: two space-separated tokens parse to first/last with an empty middle
initial; three tokens add the middle token's first character uppercased; an
empty or missing name parses to all-empty fields, and the "." last-name
default is applied by the fill stage, not by the parser. -/
theorem C8_name_parsing :
    (∀ s a b, nameTokens s = [a, b] →
        parseCustomerName (some s) = ⟨a, "", b⟩) ∧
    (∀ s a b c, nameTokens s = [a, b, c] →
        parseCustomerName (some s) = ⟨a, upperFirst b, c⟩) ∧
    parseCustomerName none = ⟨"", "", ""⟩ ∧
    parseCustomerName (some "") = ⟨"", "", ""⟩ ∧
    (parseCustomerName none).lastName = "" ∧
    (parseCustomerName (some "")).lastName = "" ∧
    fillLastNameValue (parseCustomerName none).lastName = "." ∧
    fillLastNameValue (parseCustomerName (some "")).lastName = "." := by
  refine ⟨?_, ?_, rfl, rfl, rfl, rfl, rfl, rfl⟩
  · intro s a b h
    by_cases hs : s = ""
    · subst hs
      have he : nameTokens "" = [""] := rfl
      rw [he] at h
      simp at h
    · simp only [parseCustomerName, if_neg hs]
      rw [h]
  · intro s a b c h
    by_cases hs : s = ""
    · subst hs
      have he : nameTokens "" = [""] := rfl
      rw [he] at h
      simp at h
    · simp only [parseCustomerName, if_neg hs]
      rw [h]

/-- Witness for C8 at concrete two- and three-token names. -/
theorem C8_witness :
    parseCustomerName (some "John Smith") = ⟨"John", "", "Smith"⟩ ∧
    parseCustomerName (some "John Quincy Adams") = ⟨"John", "Q", "Adams"⟩ := by
  have h := C8_name_parsing
  exact ⟨h.1 "John Smith" "John" "Smith" rfl,
    h.2.1 "John Quincy Adams" "John" "Quincy" "Adams" rfl⟩

/-- C9: the OrderNumber list scraped from a page has no duplicates and no
null entries — every entry comes from a row whose extraction succeeded, and
every successful extraction is represented (collapsed to one entry). -/
theorem C9_order_numbers_nodup_sound (rows : List Row) :
    (getAllOrderNumbersFromPage rows).Nodup ∧
    (∀ n ∈ getAllOrderNumbersFromPage rows,
        ∃ row ∈ rows, extractOrderNumberFromRow row = some n) ∧
    (∀ row ∈ rows, ∀ n, extractOrderNumberFromRow row = some n →
        n ∈ getAllOrderNumbersFromPage rows) := by
  refine ⟨nodup_getAllOrderNumbersFromPage rows, ?_, ?_⟩
  · intro n hn
    rcases mem_foldl_collectOrderNumber_elim rows [] n hn with h | h
    · cases h
    · exact h
  · intro row hrow n he
    exact mem_foldl_collectOrderNumber_of_extract rows [] hrow he

/-- Witness for C9 at a concrete page with a duplicated row. -/
theorem C9_witness :
    (getAllOrderNumbersFromPage [c6Row, c6Row]).Nodup ∧
    "ABC123" ∈ getAllOrderNumbersFromPage [c6Row, c6Row] := by
  have h := C9_order_numbers_nodup_sound [c6Row, c6Row]
  exact ⟨h.1, h.2.2 c6Row (by simp) "ABC123" rfl⟩

/-- C10: `convertStateToCode` always returns the empty string or one of the
51 codes of its lookup table, and it is idempotent on its own output. -/
theorem C10_state_code_closed_idempotent :
    ∀ s : Option String,
      (convertStateToCode s = "" ∨ convertStateToCode s ∈ stateCodes) ∧
      convertStateToCode (some (convertStateToCode s))
        = convertStateToCode s := by
  have hfact : ∀ c ∈ stateCodes, c.length = 2 ∧ jsToUpper c = c := by decide
  have hcodomain : ∀ s : Option String,
      convertStateToCode s = "" ∨ convertStateToCode s ∈ stateCodes := by
    intro s
    cases s with
    | none => exact Or.inl rfl
    | some s =>
      simp only [convertStateToCode]
      by_cases hs : s = ""
      · simp [hs]
      · rw [if_neg hs]
        by_cases hc : s.length = 2 ∧ jsToUpper s ∈ stateCodes
        · rw [if_pos hc]
          exact Or.inr hc.2
        · rw [if_neg hc]
          cases hl : lookupKey stateMap (jsTrim s) with
          | none => exact Or.inl rfl
          | some code => exact Or.inr (lookupKey_mem_values hl)
  intro s
  refine ⟨hcodomain s, ?_⟩
  rcases hcodomain s with h | h
  · rw [h]
    rfl
  · obtain ⟨hlen, hup⟩ := hfact _ h
    have hne : convertStateToCode s ≠ "" := by
      intro habs
      rw [habs] at h
      exact absurd h (by decide)
    generalize hgen : convertStateToCode s = c at h hlen hup hne ⊢
    simp only [convertStateToCode]
    rw [if_neg hne, if_pos ⟨hlen, hup.symm ▸ h⟩]
    exact hup

end LabelProcess
